import Mathlib

/-!
Shallow embedding of the agent reputation contract
(`src/contracts/reputation/src/lib.rs`, `token_integration.rs`, `intents.rs`).

Machine integers are modelled as `Nat`; Rust `as` casts that narrow are
modelled explicitly with `% 2^w`, and the fixed-width arithmetic of the
scoring loop (`total_rating`, `weight_sum`, the `* 20` multiply, the
`u64` success rate and the `raw_score + success_rate` addition) carries
its wrap-around (`% 2^32` / `% 2^64`) in the definitions, using that a
chain of wrapping additions equals the sum reduced once.  Paths whose
stated theorems do not depend on the width (category-average sums, the
restoration/remediation/recovery additions into a score that is at most
100, against points a caller would bound far below `u32::MAX`) are kept as
exact `Nat`; the score-formula theorem confines itself by hypothesis to
the regime where wrapped, checked and exact arithmetic coincide.  The
NEAR environment is passed explicitly:
`env::predecessor_account_id()` becomes a `caller` argument and
`env::block_timestamp()` a `now` argument.  A Rust `assert!`/panic aborts
the transaction with no state change; fallible entry points therefore
return `Option Contract`, with `none` for the aborted call.
-/

namespace Reputation

abbrev AccountId := String

/-- Truncating cast to `u32` (Rust `as u32`). -/
def u32cast (n : Nat) : Nat := n % 2 ^ 32

/-- Truncating cast to `u8` (Rust `as u8`). -/
def u8cast (n : Nat) : Nat := n % 2 ^ 8

structure CategoryRatings where
  accuracy : Nat
  response_time : Nat
  communication : Nat
  problem_solving : Nat
  ethics : Nat
deriving DecidableEq

def CategoryRatings.default : CategoryRatings :=
  { accuracy := 0, response_time := 0, communication := 0,
    problem_solving := 0, ethics := 0 }

structure FeedbackEntry where
  user_id : AccountId
  rating : Nat
  category_ratings : CategoryRatings
  message : Option String
  timestamp : Nat
deriving DecidableEq

inductive ViolationType where
  | MinorInfraction
  | MajorInfraction
  | TermsViolation
  | EthicalViolation
  | SecurityBreach
deriving DecidableEq

structure ViolationRecord where
  violation_type : ViolationType
  reporter : AccountId
  description : String
  evidence : Option String
  timestamp : Nat
  penalty_applied : Nat
  tokens_slashed : Nat
deriving DecidableEq

structure AgentReputation where
  score : Nat
  total_interactions : Nat
  successful_interactions : Nat
  feedback_history : List FeedbackEntry
  last_update : Nat
  specializations : List String
  category_scores : CategoryRatings
  violation_history : List ViolationRecord
deriving DecidableEq

inductive TrustLevel where
  | Novice
  | Apprentice
  | Trusted
  | Expert
  | Master
deriving DecidableEq

/-- Contract state: the two ledgers plus policy constants.  `UnorderedMap`
and `LookupMap` are modelled as functions; every read of the stake map in
the source is `get(..).unwrap_or(0)`, so stakes default to `0`. -/
structure Contract where
  owner_id : AccountId
  token_contract_id : AccountId
  agent_reputations : AccountId → Option AgentReputation
  agent_stakes : AccountId → Nat
  min_stake_amount : Nat
  feedback_expiry_period : Nat

/-- `AgentReputationContract::new`. -/
def new (owner_id token_contract_id : AccountId) (min_stake_amount : Nat) : Contract :=
  { owner_id, token_contract_id,
    agent_reputations := fun _ => none,
    agent_stakes := fun _ => 0,
    min_stake_amount,
    feedback_expiry_period := 30 * 24 * 60 * 60 * 1000000000 }

def Contract.setRep (c : Contract) (a : AccountId) (r : AgentReputation) : Contract :=
  { c with agent_reputations := fun x => if x = a then some r else c.agent_reputations x }

def Contract.setStake (c : Contract) (a : AccountId) (s : Nat) : Contract :=
  { c with agent_stakes := fun x => if x = a then s else c.agent_stakes x }

/-- Fresh record built by `register_agent`. -/
def AgentReputation.initial (now : Nat) (specializations : List String) : AgentReputation :=
  { score := 50, total_interactions := 0, successful_interactions := 0,
    feedback_history := [], last_update := now, specializations,
    category_scores := CategoryRatings.default, violation_history := [] }

/-- `register_agent`: only the agent itself, must not already exist. -/
def register_agent (c : Contract) (caller : AccountId) (now : Nat)
    (agent_id : AccountId) (specializations : List String) : Option Contract :=
  if caller = agent_id then
    match c.agent_reputations agent_id with
    | some _ => none
    | none => some (c.setRep agent_id (AgentReputation.initial now specializations))
  else none

/-- The filter of `feedback_history` used by both recomputation paths:
entries with `current_time - f.timestamp <= feedback_expiry_period`. -/
def validFeedback (c : Contract) (now : Nat) (hist : List FeedbackEntry) :
    List FeedbackEntry :=
  hist.filter (fun f => decide (now - f.timestamp ≤ c.feedback_expiry_period))

/-- `calculate_stake_bonus`: staircase over multiples of the minimum
stake.  With `min_stake_amount = 0` the source's `stake / min_stake`
division panics (aborting the call); `Nat` division yields 0 here, so
theorems that equate a recomputed score with its formula assume a
nonzero minimum stake. -/
def calculate_stake_bonus (c : Contract) (agent_id : AccountId) : Nat :=
  let stake := c.agent_stakes agent_id
  let min_stake := c.min_stake_amount
  if stake < min_stake then 0
  else
    match stake / min_stake with
    | 0 => 0
    | 1 => 3
    | 2 => 6
    | 3 => 9
    | 4 => 12
    | _ => 15

/-- The source's `total_rating` accumulator: for each enumerated valid
entry, `let weight = i as u32 + 1` (wrapping `u32` increment after the
`usize → u32` cast) and `total_rating += (rating as u32) * weight`, where
the `u32` product and every `u32` addition wrap at `2^32`.  A chain of
wrapping additions of already-reduced terms equals their sum followed by a
single reduction, so the accumulator is written as a reduced sum of
reduced terms. -/
def total_rating (valid : List FeedbackEntry) : Nat :=
  (valid.enum.map
    (fun p => p.2.rating * ((u32cast p.1 + 1) % 2 ^ 32) % 2 ^ 32)).sum % 2 ^ 32

/-- The source's `weight_sum` accumulator: the same wrapping-`u32` weights,
summed with wrapping `u32` additions (one reduction of the `Nat` sum). -/
def weight_sum (valid : List FeedbackEntry) : Nat :=
  (valid.enum.map (fun p => (u32cast p.1 + 1) % 2 ^ 32)).sum % 2 ^ 32

/-- `recalculate_reputation`, with the source's integer widths:
`total_rating * 20` is a `u32` multiply (wraps), the success rate is
`u64` arithmetic (`successful * 100` wraps at `2^64`) narrowed by
`as u32`, and `raw_score + success_rate` is a `u32` addition (wraps);
`combined_score + stake_bonus` is below `2^31 + 15`, so that `u32`
addition cannot wrap and is written exactly.
NOTE (faithful to the source): the stake bonus is looked up for
`env::predecessor_account_id()` — the caller of the surrounding entry
point — not for the agent whose record is recomputed. -/
def recalculate_reputation (c : Contract) (caller : AccountId) (now : Nat)
    (agent_rep : AgentReputation) : AgentReputation :=
  if agent_rep.total_interactions = 0 then agent_rep
  else
    let valid_feedback := validFeedback c now agent_rep.feedback_history
    if 0 < weight_sum valid_feedback then
      let raw_score := total_rating valid_feedback * 20 % 2 ^ 32 / weight_sum valid_feedback
      let success_rate :=
        agent_rep.successful_interactions * 100 % 2 ^ 64 / agent_rep.total_interactions
      let stake_bonus := calculate_stake_bonus c caller
      let combined_score := (raw_score + u32cast success_rate) % 2 ^ 32 / 2
      { agent_rep with score := min (combined_score + stake_bonus) 100 }
    else agent_rep

/-- `recalculate_reputation_with_categories`: category averages over the
valid entries (with the source's `len() as u32` and `as u8` casts), then
the regular recomputation. -/
def recalculate_reputation_with_categories (c : Contract) (caller : AccountId)
    (now : Nat) (agent_rep : AgentReputation) : AgentReputation :=
  if agent_rep.total_interactions = 0 then agent_rep
  else
    let valid_feedback := validFeedback c now agent_rep.feedback_history
    if valid_feedback.isEmpty then agent_rep
    else
      let accuracy_sum := (valid_feedback.map (fun f => f.category_ratings.accuracy)).sum
      let response_time_sum :=
        (valid_feedback.map (fun f => f.category_ratings.response_time)).sum
      let communication_sum :=
        (valid_feedback.map (fun f => f.category_ratings.communication)).sum
      let problem_solving_sum :=
        (valid_feedback.map (fun f => f.category_ratings.problem_solving)).sum
      let ethics_sum := (valid_feedback.map (fun f => f.category_ratings.ethics)).sum
      let count := u32cast valid_feedback.length
      let agent_rep' := { agent_rep with
        category_scores :=
          { accuracy := u8cast (accuracy_sum / count),
            response_time := u8cast (response_time_sum / count),
            communication := u8cast (communication_sum / count),
            problem_solving := u8cast (problem_solving_sum / count),
            ethics := u8cast (ethics_sum / count) } }
      recalculate_reputation c caller now agent_rep'

/-- `add_feedback`: registration and 0–5 validation asserts, append the
entry, bump the counters (success iff `rating >= 3`), recompute, stamp
`last_update`. -/
def add_feedback (c : Contract) (caller : AccountId) (now : Nat)
    (agent_id : AccountId) (rating : Nat) (category_ratings : CategoryRatings)
    (message : Option String) : Option Contract :=
  match c.agent_reputations agent_id with
  | none => none
  | some agent_rep =>
    if rating ≤ 5 ∧ category_ratings.accuracy ≤ 5 ∧ category_ratings.response_time ≤ 5 ∧
        category_ratings.communication ≤ 5 ∧ category_ratings.problem_solving ≤ 5 ∧
        category_ratings.ethics ≤ 5 then
      let feedback : FeedbackEntry :=
        { user_id := caller, rating, category_ratings, message, timestamp := now }
      let agent_rep := { agent_rep with
        feedback_history := agent_rep.feedback_history ++ [feedback],
        total_interactions := agent_rep.total_interactions + 1,
        successful_interactions :=
          agent_rep.successful_interactions + (if 3 ≤ rating then 1 else 0) }
      let agent_rep := recalculate_reputation_with_categories c caller now agent_rep
      some (c.setRep agent_id { agent_rep with last_update := now })
    else none

/-- `update_reputation_on_stake_change`. -/
def update_reputation_on_stake_change (c : Contract) (caller : AccountId) (now : Nat)
    (agent_id : AccountId) : Contract :=
  match c.agent_reputations agent_id with
  | some agent_rep => c.setRep agent_id (recalculate_reputation c caller now agent_rep)
  | none => c

/-- `stake_tokens` (simplified direct path in the source). -/
def stake_tokens (c : Contract) (caller : AccountId) (amount : Nat) : Contract :=
  c.setStake caller (c.agent_stakes caller + amount)

/-- `get_trust_level`: the `match score { 0..=30 => .. }` range match. -/
def get_trust_level (score : Nat) : TrustLevel :=
  if score ≤ 30 then .Novice
  else if score ≤ 50 then .Apprentice
  else if score ≤ 75 then .Trusted
  else if score ≤ 90 then .Expert
  else .Master

/-- The fixed `(reputation penalty, token slash percentage)` table of
`report_violation`. -/
def violation_penalties (violation_type : ViolationType) : Nat × Nat :=
  match violation_type with
  | .MinorInfraction => (5, 1)
  | .MajorInfraction => (15, 5)
  | .TermsViolation => (25, 10)
  | .EthicalViolation => (40, 25)
  | .SecurityBreach => (60, 50)

/-- `is_governance_member`: in the source, just the owner check. -/
def is_governance_member (c : Contract) (account_id : AccountId) : Bool :=
  account_id = c.owner_id

/-- `execute_slashing`: subtract if the current stake covers the amount. -/
def execute_slashing (c : Contract) (agent_id : AccountId) (amount : Nat) : Contract :=
  let current_stake := c.agent_stakes agent_id
  if amount ≤ current_stake then c.setStake agent_id (current_stake - amount)
  else c

/-- `report_violation`: owner-or-governance only, registered agent only;
floor the score at 0, record the violation, then slash. -/
def report_violation (c : Contract) (reporter : AccountId) (now : Nat)
    (agent_id : AccountId) (violation_type : ViolationType) (description : String)
    (evidence : Option String) : Option Contract :=
  if reporter = c.owner_id ∨ is_governance_member c reporter = true then
    match c.agent_reputations agent_id with
    | none => none
    | some agent_rep =>
      let reputation_penalty := (violation_penalties violation_type).1
      let token_slash_percentage := (violation_penalties violation_type).2
      let agent_rep := { agent_rep with
        score := if reputation_penalty ≤ agent_rep.score
                 then agent_rep.score - reputation_penalty else 0 }
      let stake := c.agent_stakes agent_id
      let tokens_to_slash := stake * token_slash_percentage / 100
      let violation : ViolationRecord :=
        { violation_type, reporter, description, evidence, timestamp := now,
          penalty_applied := reputation_penalty, tokens_slashed := tokens_to_slash }
      let agent_rep := { agent_rep with
        violation_history := agent_rep.violation_history ++ [violation] }
      let c' := c.setRep agent_id agent_rep
      some (if 0 < tokens_to_slash then execute_slashing c' agent_id tokens_to_slash else c')
  else none

/-- `appeal_violation`: registered caller, index bound check, log only. -/
def appeal_violation (c : Contract) (caller : AccountId) (violation_index : Nat)
    (_justification : String) : Option Contract :=
  match c.agent_reputations caller with
  | none => none
  | some agent_rep =>
    if violation_index < agent_rep.violation_history.length then some c else none

/-- `restore_reputation`: owner-or-governance only, ceiling at 100. -/
def restore_reputation (c : Contract) (caller : AccountId) (agent_id : AccountId)
    (points : Nat) (_reason : String) : Option Contract :=
  if caller = c.owner_id ∨ is_governance_member c caller = true then
    match c.agent_reputations agent_id with
    | none => none
    | some agent_rep =>
      some (c.setRep agent_id { agent_rep with score := min (agent_rep.score + points) 100 })
  else none

/-- `complete_remediation_task`: fixed 5 points, ceiling at 100. -/
def complete_remediation_task (c : Contract) (caller : AccountId)
    (_task_id : String) (_pf : String) : Option Contract :=
  match c.agent_reputations caller with
  | none => none
  | some agent_rep =>
    let recovery_points := 5
    some (c.setRep caller { agent_rep with score := min (agent_rep.score + recovery_points) 100 })

/-- `boost_recovery_with_stake`: guard only (registered and score below 50);
the transfer itself is the external promise, applied later by the
recovery-stake callback. -/
def boost_recovery_with_stake (c : Contract) (caller : AccountId) : Option Contract :=
  match c.agent_reputations caller with
  | none => none
  | some agent_rep => if agent_rep.score < 50 then some c else none

/-- Outcome of the external token-transfer promise. -/
inductive PromiseOutcome where
  | successful
  | failed
deriving DecidableEq

/-- `on_recovery_stake_complete` (body after the self-callback assert):
on success, `min((amount * 10 / min_stake) as u32, 20)` recovery points,
score ceiling 100; on failure, log only. -/
def on_recovery_stake_complete (c : Contract) (agent_id : AccountId) (amount : Nat)
    (outcome : PromiseOutcome) : Contract :=
  match outcome with
  | .successful =>
    match c.agent_reputations agent_id with
    | some agent_rep =>
      let recovery_points := min (u32cast (amount * 10 / c.min_stake_amount)) 20
      c.setRep agent_id { agent_rep with score := min (agent_rep.score + recovery_points) 100 }
    | none => c
  | .failed => c

/-- `on_stake_complete` (body after the self-callback assert): on success,
credit the stake and re-insert the unchanged record; on failure, log only. -/
def on_stake_complete (c : Contract) (agent_id : AccountId) (amount : Nat)
    (outcome : PromiseOutcome) : Contract :=
  match outcome with
  | .successful =>
    let c' := c.setStake agent_id (c.agent_stakes agent_id + amount)
    match c'.agent_reputations agent_id with
    | some agent_rep => c'.setRep agent_id agent_rep
    | none => c'
  | .failed => c

/-- `unstake_itlx`: abort when the stake does not cover the amount; debit
the stake; if the remainder is below the minimum and the caller is
registered, deduct 5 score points when `score > 5`. -/
def unstake_itlx (c : Contract) (caller : AccountId) (amount : Nat) : Option Contract :=
  let current_stake := c.agent_stakes caller
  if current_stake < amount then none
  else
    let c' := c.setStake caller (current_stake - amount)
    match c'.agent_reputations caller with
    | some agent_rep =>
      if current_stake - amount < c'.min_stake_amount then
        let agent_rep := if 5 < agent_rep.score
          then { agent_rep with score := agent_rep.score - 5 } else agent_rep
        some (c'.setRep caller agent_rep)
      else some c'
    | none => some c'

inductive IntentStatus where
  | Created
  | InProgress
  | Completed
  | Failed
deriving DecidableEq

/-- The status-string match of `update_intent_status`; `none` is the
`panic!("Invalid status")` arm. -/
def parse_intent_status (status : String) : Option IntentStatus :=
  if status = "completed" then some .Completed
  else if status = "failed" then some .Failed
  else if status = "in_progress" then some .InProgress
  else none

/-- `record_intent`: registration assert, then event log only. -/
def record_intent (c : Contract) (_caller : AccountId) (_now : Nat)
    (agent_id : AccountId) : Option Contract :=
  match c.agent_reputations agent_id with
  | none => none
  | some _ => some c

/-- `update_intent_status`: the caller is the agent; on a completed or
failed intent, bump the interaction counters. -/
def update_intent_status (c : Contract) (caller : AccountId) (status : String) :
    Option Contract :=
  match c.agent_reputations caller with
  | none => none
  | some agent_rep =>
    match parse_intent_status status with
    | none => none
    | some status_enum =>
      if status_enum = IntentStatus.Completed ∨ status_enum = IntentStatus.Failed then
        let agent_rep := { agent_rep with
          total_interactions := agent_rep.total_interactions + 1,
          successful_interactions := agent_rep.successful_interactions +
            (if status_enum = IntentStatus.Completed then 1 else 0) }
        some (c.setRep caller agent_rep)
      else some c

/-! ## State-machine layer: every public mutating entry point as an event -/

/-- One public mutating call, with its caller and environment data.  The
two promise callbacks carry the external transfer outcome. -/
inductive Op where
  | register (caller : AccountId) (now : Nat) (agent_id : AccountId) (specs : List String)
  | feedback (caller : AccountId) (now : Nat) (agent_id : AccountId) (rating : Nat)
      (cr : CategoryRatings) (msg : Option String)
  | violation (reporter : AccountId) (now : Nat) (agent_id : AccountId)
      (vt : ViolationType) (description : String) (evidence : Option String)
  | restore (caller : AccountId) (agent_id : AccountId) (points : Nat) (reason : String)
  | remediation (caller : AccountId) (task_id : String) (pf : String)
  | appeal (caller : AccountId) (violation_index : Nat) (text : String)
  | boostRecovery (caller : AccountId)
  | recoveryStakeComplete (agent_id : AccountId) (amount : Nat) (outcome : PromiseOutcome)
  | stakeTokens (caller : AccountId) (amount : Nat)
  | stakeComplete (agent_id : AccountId) (amount : Nat) (outcome : PromiseOutcome)
  | unstake (caller : AccountId) (amount : Nat)
  | stakeChangeRecalc (caller : AccountId) (now : Nat) (agent_id : AccountId)
  | recordIntent (caller : AccountId) (now : Nat) (agent_id : AccountId)
  | intentStatus (caller : AccountId) (status : String)

/-- Apply one operation; an aborted (panicking) call leaves the state
unchanged, matching transaction-revert semantics. -/
def step (c : Contract) : Op → Contract
  | .register caller now agent_id specs => (register_agent c caller now agent_id specs).getD c
  | .feedback caller now agent_id rating cr msg =>
      (add_feedback c caller now agent_id rating cr msg).getD c
  | .violation reporter now agent_id vt d ev =>
      (report_violation c reporter now agent_id vt d ev).getD c
  | .restore caller agent_id points reason =>
      (restore_reputation c caller agent_id points reason).getD c
  | .remediation caller task_id pf => (complete_remediation_task c caller task_id pf).getD c
  | .appeal caller i t => (appeal_violation c caller i t).getD c
  | .boostRecovery caller => (boost_recovery_with_stake c caller).getD c
  | .recoveryStakeComplete agent_id amount outcome =>
      on_recovery_stake_complete c agent_id amount outcome
  | .stakeTokens caller amount => stake_tokens c caller amount
  | .stakeComplete agent_id amount outcome => on_stake_complete c agent_id amount outcome
  | .unstake caller amount => (unstake_itlx c caller amount).getD c
  | .stakeChangeRecalc caller now agent_id =>
      update_reputation_on_stake_change c caller now agent_id
  | .recordIntent caller now agent_id => (record_intent c caller now agent_id).getD c
  | .intentStatus caller status => (update_intent_status c caller status).getD c

/-- Per-record invariant: score within bound, success counter dominated by
the total counter (the `0 ≤ score` half of the spec's invariant is carried
by the `Nat` carrier). -/
def RepInv (rep : AgentReputation) : Prop :=
  rep.score ≤ 100 ∧ rep.successful_interactions ≤ rep.total_interactions

/-- Contract-wide invariant: every registered agent's record is sound. -/
def Inv (c : Contract) : Prop :=
  ∀ a rep, c.agent_reputations a = some rep → RepInv rep

/-! ## Spec-side formula (from the claimed scoring sentence, cast-free) -/

/-- The claimed recency-weighted rating sum: the i-th valid entry in
insertion order, 1-indexed from the oldest, carries weight i. -/
def spec_weighted_rating_sum (valid : List FeedbackEntry) : Nat :=
  (valid.enum.map (fun p => p.2.rating * (p.1 + 1))).sum

/-- The claimed weight sum `1 + 2 + ... + n` over the valid entries. -/
def spec_weight_total (valid : List FeedbackEntry) : Nat :=
  (valid.enum.map (fun p => p.1 + 1)).sum

/-- The claimed weighted average scaled from the 0–5 domain to 0–100 by
the factor 20, under integer division. -/
def spec_weighted_avg_scaled (valid : List FeedbackEntry) : Nat :=
  spec_weighted_rating_sum valid * 20 / spec_weight_total valid

/-- The claimed success rate over the lifetime interaction counters. -/
def spec_success_rate (rep : AgentReputation) : Nat :=
  rep.successful_interactions * 100 / rep.total_interactions

/-! ## Concrete states used by closed theorems -/

/-- A record holding one expired entry (timestamp 0, evaluated one
nanosecond past the 30-day expiry window). -/
def repC9 : AgentReputation :=
  { AgentReputation.initial 0 [] with
    feedback_history :=
      [{ user_id := "u", rating := 5,
         category_ratings := { accuracy := 5, response_time := 5, communication := 5,
                               problem_solving := 5, ethics := 5 },
         message := none, timestamp := 0 }],
    total_interactions := 1, successful_interactions := 1 }

/-- Agent "bob" holds a 5× stake (500 against a minimum of 100); the
caller "alice" holds no stake. -/
def cBug : Contract :=
  ((new "owner" "token" 100).setRep "bob" (AgentReputation.initial 0 [])).setStake "bob" 500

/-- A registered agent with a fresh (empty-history) record. -/
def cC5 : Contract :=
  (new "owner" "token" 100).setRep "bob" (AgentReputation.initial 0 [])

/-- A record with two fresh feedback entries (ratings 1 and 4) and lifetime
counters 2/1, used to evaluate the score formula. -/
def repC4 : AgentReputation :=
  { AgentReputation.initial 0 [] with
    feedback_history :=
      [{ user_id := "u", rating := 1,
         category_ratings := { accuracy := 1, response_time := 1, communication := 1,
                               problem_solving := 1, ethics := 1 },
         message := none, timestamp := 0 },
       { user_id := "v", rating := 4,
         category_ratings := { accuracy := 4, response_time := 4, communication := 4,
                               problem_solving := 4, ethics := 4 },
         message := none, timestamp := 0 }],
    total_interactions := 2, successful_interactions := 1 }

/-! ## Invariant-preservation lemmas -/

theorem setRep_lookup (c : Contract) (a : AccountId) (r : AgentReputation) (x : AccountId) :
    (c.setRep a r).agent_reputations x = if x = a then some r else c.agent_reputations x :=
  rfl

theorem setRep_stakes (c : Contract) (a : AccountId) (r : AgentReputation) :
    (c.setRep a r).agent_stakes = c.agent_stakes :=
  rfl

theorem setStake_reps (c : Contract) (a : AccountId) (s : Nat) :
    (c.setStake a s).agent_reputations = c.agent_reputations :=
  rfl

theorem setStake_lookup (c : Contract) (a : AccountId) (s : Nat) (x : AccountId) :
    (c.setStake a s).agent_stakes x = if x = a then s else c.agent_stakes x :=
  rfl

theorem setStake_min (c : Contract) (a : AccountId) (s : Nat) :
    (c.setStake a s).min_stake_amount = c.min_stake_amount :=
  rfl

theorem inv_setRep {c : Contract} {a : AccountId} {r : AgentReputation}
    (h : Inv c) (hr : RepInv r) : Inv (c.setRep a r) := by
  intro x rep hx
  rw [setRep_lookup] at hx
  split at hx
  · cases hx; exact hr
  · exact h x rep hx

theorem inv_setStake {c : Contract} {a : AccountId} {s : Nat} (h : Inv c) :
    Inv (c.setStake a s) :=
  fun x rep hx => h x rep hx

theorem recalculate_cases (c : Contract) (caller : AccountId) (now : Nat)
    (rep : AgentReputation) :
    recalculate_reputation c caller now rep = rep ∨
    ∃ s, recalculate_reputation c caller now rep = { rep with score := min s 100 } := by
  unfold recalculate_reputation
  split
  · exact Or.inl rfl
  · dsimp only
    split
    · exact Or.inr ⟨_, rfl⟩
    · exact Or.inl rfl

theorem recalc_repinv {c : Contract} {caller : AccountId} {now : Nat}
    {rep : AgentReputation} (h : RepInv rep) :
    RepInv (recalculate_reputation c caller now rep) := by
  rcases recalculate_cases c caller now rep with heq | ⟨s, heq⟩ <;> rw [heq]
  · exact h
  · exact ⟨Nat.min_le_right s 100, h.2⟩

theorem recalcCat_cases (c : Contract) (caller : AccountId) (now : Nat)
    (rep : AgentReputation) :
    recalculate_reputation_with_categories c caller now rep = rep ∨
    ∃ cs, recalculate_reputation_with_categories c caller now rep =
      recalculate_reputation c caller now { rep with category_scores := cs } := by
  unfold recalculate_reputation_with_categories
  split
  · exact Or.inl rfl
  · dsimp only
    split
    · exact Or.inl rfl
    · exact Or.inr ⟨_, rfl⟩

theorem recalcCat_repinv {c : Contract} {caller : AccountId} {now : Nat}
    {rep : AgentReputation} (h : RepInv rep) :
    RepInv (recalculate_reputation_with_categories c caller now rep) := by
  rcases recalcCat_cases c caller now rep with heq | ⟨cs, heq⟩ <;> rw [heq]
  · exact h
  · exact recalc_repinv ⟨h.1, h.2⟩

theorem repinv_initial (now : Nat) (specs : List String) :
    RepInv (AgentReputation.initial now specs) := by
  exact ⟨by norm_num [AgentReputation.initial], Nat.le_refl 0⟩

theorem inv_register {c : Contract} (caller : AccountId) (now : Nat)
    (agent_id : AccountId) (specs : List String) (h : Inv c) :
    ∀ c', register_agent c caller now agent_id specs = some c' → Inv c' := by
  intro c' hc'
  unfold register_agent at hc'
  split at hc'
  · split at hc'
    · exact absurd hc' (by simp)
    · cases hc'; exact inv_setRep h (repinv_initial now specs)
  · exact absurd hc' (by simp)

theorem inv_add_feedback {c : Contract} (caller : AccountId) (now : Nat)
    (agent_id : AccountId) (rating : Nat) (cr : CategoryRatings) (msg : Option String)
    (h : Inv c) :
    ∀ c', add_feedback c caller now agent_id rating cr msg = some c' → Inv c' := by
  intro c' hc'
  unfold add_feedback at hc'
  split at hc'
  · exact absurd hc' (by simp)
  · rename_i agent_rep hrep
    split at hc'
    · cases hc'
      apply inv_setRep h
      have h0 := h agent_id agent_rep hrep
      have h1 : RepInv { agent_rep with
          feedback_history := agent_rep.feedback_history ++
            [{ user_id := caller, rating, category_ratings := cr, message := msg,
               timestamp := now }],
          total_interactions := agent_rep.total_interactions + 1,
          successful_interactions :=
            agent_rep.successful_interactions + (if 3 ≤ rating then 1 else 0) } := by
        refine ⟨h0.1, ?_⟩
        have := h0.2
        dsimp only
        split <;> omega
      have h2 : RepInv (recalculate_reputation_with_categories c caller now _) :=
        recalcCat_repinv h1
      exact ⟨h2.1, h2.2⟩
    · exact absurd hc' (by simp)

theorem inv_execute_slashing {c : Contract} (agent_id : AccountId) (amount : Nat)
    (h : Inv c) : Inv (execute_slashing c agent_id amount) := by
  unfold execute_slashing
  dsimp only
  split
  · exact inv_setStake h
  · exact h

theorem inv_report_violation {c : Contract} (reporter : AccountId) (now : Nat)
    (agent_id : AccountId) (vt : ViolationType) (d : String) (ev : Option String)
    (h : Inv c) :
    ∀ c', report_violation c reporter now agent_id vt d ev = some c' → Inv c' := by
  intro c' hc'
  unfold report_violation at hc'
  split at hc'
  · split at hc'
    · exact absurd hc' (by simp)
    · rename_i agent_rep hrep
      cases hc'
      have h0 := h agent_id agent_rep hrep
      have hri : RepInv { agent_rep with
          score := if (violation_penalties vt).1 ≤ agent_rep.score
                   then agent_rep.score - (violation_penalties vt).1 else 0,
          violation_history := agent_rep.violation_history ++
            [{ violation_type := vt, reporter, description := d, evidence := ev,
               timestamp := now, penalty_applied := (violation_penalties vt).1,
               tokens_slashed :=
                 c.agent_stakes agent_id * (violation_penalties vt).2 / 100 }] } := by
        refine ⟨?_, h0.2⟩
        have := h0.1
        dsimp only
        split <;> omega
      split
      · exact inv_execute_slashing _ _ (inv_setRep h hri)
      · exact inv_setRep h hri
  · exact absurd hc' (by simp)

theorem inv_restore {c : Contract} (caller : AccountId) (agent_id : AccountId)
    (points : Nat) (reason : String) (h : Inv c) :
    ∀ c', restore_reputation c caller agent_id points reason = some c' → Inv c' := by
  intro c' hc'
  unfold restore_reputation at hc'
  split at hc'
  · split at hc'
    · exact absurd hc' (by simp)
    · rename_i agent_rep hrep
      cases hc'
      exact inv_setRep h ⟨Nat.min_le_right _ 100, (h agent_id agent_rep hrep).2⟩
  · exact absurd hc' (by simp)

theorem inv_remediation {c : Contract} (caller : AccountId) (task_id pf : String)
    (h : Inv c) :
    ∀ c', complete_remediation_task c caller task_id pf = some c' → Inv c' := by
  intro c' hc'
  unfold complete_remediation_task at hc'
  split at hc'
  · exact absurd hc' (by simp)
  · rename_i agent_rep hrep
    cases hc'
    exact inv_setRep h ⟨Nat.min_le_right _ 100, (h caller agent_rep hrep).2⟩

theorem inv_appeal {c : Contract} (caller : AccountId) (i : Nat) (t : String)
    (h : Inv c) : ∀ c', appeal_violation c caller i t = some c' → Inv c' := by
  intro c' hc'
  unfold appeal_violation at hc'
  split at hc'
  · exact absurd hc' (by simp)
  · split at hc'
    · cases hc'; exact h
    · exact absurd hc' (by simp)

theorem inv_boost {c : Contract} (caller : AccountId) (h : Inv c) :
    ∀ c', boost_recovery_with_stake c caller = some c' → Inv c' := by
  intro c' hc'
  unfold boost_recovery_with_stake at hc'
  split at hc'
  · exact absurd hc' (by simp)
  · split at hc'
    · cases hc'; exact h
    · exact absurd hc' (by simp)

theorem inv_recovery_complete {c : Contract} (agent_id : AccountId) (amount : Nat)
    (outcome : PromiseOutcome) (h : Inv c) :
    Inv (on_recovery_stake_complete c agent_id amount outcome) := by
  unfold on_recovery_stake_complete
  match outcome with
  | .failed => exact h
  | .successful =>
    cases hrep : c.agent_reputations agent_id with
    | none => simp only [hrep]; exact h
    | some agent_rep =>
      simp only [hrep]
      exact inv_setRep h ⟨Nat.min_le_right _ 100, (h agent_id agent_rep hrep).2⟩

theorem inv_stake_tokens {c : Contract} (caller : AccountId) (amount : Nat)
    (h : Inv c) : Inv (stake_tokens c caller amount) :=
  inv_setStake h

theorem inv_stake_complete {c : Contract} (agent_id : AccountId) (amount : Nat)
    (outcome : PromiseOutcome) (h : Inv c) :
    Inv (on_stake_complete c agent_id amount outcome) := by
  unfold on_stake_complete
  match outcome with
  | .failed => exact h
  | .successful =>
    have h1 : Inv (c.setStake agent_id (c.agent_stakes agent_id + amount)) := inv_setStake h
    cases hrep : (c.setStake agent_id
        (c.agent_stakes agent_id + amount)).agent_reputations agent_id with
    | none => simp only [hrep]; exact h1
    | some agent_rep =>
      simp only [hrep]
      exact inv_setRep h1 (h1 agent_id agent_rep hrep)

theorem inv_unstake {c : Contract} (caller : AccountId) (amount : Nat) (h : Inv c) :
    ∀ c', unstake_itlx c caller amount = some c' → Inv c' := by
  intro c' hc'
  unfold unstake_itlx at hc'
  dsimp only at hc'
  split at hc'
  · exact absurd hc' (by simp)
  · have h1 : Inv (c.setStake caller (c.agent_stakes caller - amount)) := inv_setStake h
    split at hc'
    · rename_i agent_rep hrep
      split at hc'
      · cases hc'
        apply inv_setRep h1
        obtain ⟨hs, ht⟩ := h1 caller agent_rep hrep
        split
        · exact ⟨by dsimp only; omega, ht⟩
        · exact ⟨hs, ht⟩
      · cases hc'; exact h1
    · cases hc'; exact h1

theorem inv_stake_change_recalc {c : Contract} (caller : AccountId) (now : Nat)
    (agent_id : AccountId) (h : Inv c) :
    Inv (update_reputation_on_stake_change c caller now agent_id) := by
  unfold update_reputation_on_stake_change
  cases hrep : c.agent_reputations agent_id with
  | none => exact h
  | some agent_rep => exact inv_setRep h (recalc_repinv (h agent_id agent_rep hrep))

theorem inv_record_intent {c : Contract} (caller : AccountId) (now : Nat)
    (agent_id : AccountId) (h : Inv c) :
    ∀ c', record_intent c caller now agent_id = some c' → Inv c' := by
  intro c' hc'
  unfold record_intent at hc'
  split at hc'
  · exact absurd hc' (by simp)
  · cases hc'; exact h

theorem inv_intent_status {c : Contract} (caller : AccountId) (status : String)
    (h : Inv c) : ∀ c', update_intent_status c caller status = some c' → Inv c' := by
  intro c' hc'
  unfold update_intent_status at hc'
  split at hc'
  · exact absurd hc' (by simp)
  · rename_i agent_rep hrep
    split at hc'
    · exact absurd hc' (by simp)
    · split at hc'
      · cases hc'
        apply inv_setRep h
        have h0 := h caller agent_rep hrep
        refine ⟨h0.1, ?_⟩
        have := h0.2
        dsimp only
        split <;> omega
      · cases hc'; exact h

theorem inv_getD {o : Option Contract} {c : Contract} (h : Inv c)
    (h2 : ∀ c', o = some c' → Inv c') : Inv (o.getD c) := by
  cases o with
  | none => exact h
  | some c' => exact h2 c' rfl

theorem inv_step (c : Contract) (op : Op) (h : Inv c) : Inv (step c op) := by
  cases op with
  | register caller now agent_id specs => exact inv_getD h (inv_register caller now agent_id specs h)
  | feedback caller now agent_id rating cr msg =>
      exact inv_getD h (inv_add_feedback caller now agent_id rating cr msg h)
  | violation reporter now agent_id vt d ev =>
      exact inv_getD h (inv_report_violation reporter now agent_id vt d ev h)
  | restore caller agent_id points reason =>
      exact inv_getD h (inv_restore caller agent_id points reason h)
  | remediation caller task_id pf => exact inv_getD h (inv_remediation caller task_id pf h)
  | appeal caller i t => exact inv_getD h (inv_appeal caller i t h)
  | boostRecovery caller => exact inv_getD h (inv_boost caller h)
  | recoveryStakeComplete agent_id amount outcome =>
      exact inv_recovery_complete agent_id amount outcome h
  | stakeTokens caller amount => exact inv_stake_tokens caller amount h
  | stakeComplete agent_id amount outcome => exact inv_stake_complete agent_id amount outcome h
  | unstake caller amount => exact inv_getD h (inv_unstake caller amount h)
  | stakeChangeRecalc caller now agent_id =>
      exact inv_stake_change_recalc caller now agent_id h
  | recordIntent caller now agent_id => exact inv_getD h (inv_record_intent caller now agent_id h)
  | intentStatus caller status => exact inv_getD h (inv_intent_status caller status h)

theorem inv_foldl (ops : List Op) (c : Contract) (h : Inv c) : Inv (ops.foldl step c) := by
  induction ops generalizing c with
  | nil => exact h
  | cons op rest ih => exact ih _ (inv_step c op h)

theorem inv_new (owner token : AccountId) (min_stake : Nat) :
    Inv (new owner token min_stake) := by
  intro a rep h
  simp [new] at h

/-! ## Further structural lemmas about the scoring engine -/

theorem validFeedback_idem (c : Contract) (now : Nat) (l : List FeedbackEntry) :
    validFeedback c now (validFeedback c now l) = validFeedback c now l := by
  unfold validFeedback
  rw [List.filter_filter]
  congr 1
  funext f
  exact Bool.and_self _

theorem recalc_keeps_categories (c : Contract) (caller : AccountId) (now : Nat)
    (rep : AgentReputation) :
    (recalculate_reputation c caller now rep).category_scores = rep.category_scores := by
  rcases recalculate_cases c caller now rep with h | ⟨s, h⟩ <;> rw [h]

theorem recalculate_eq_of_no_valid {c : Contract} {caller : AccountId} {now : Nat}
    {rep : AgentReputation} (h : validFeedback c now rep.feedback_history = []) :
    recalculate_reputation c caller now rep = rep := by
  unfold recalculate_reputation
  split
  · rfl
  · dsimp only
    rw [h]
    simp [weight_sum, total_rating]

theorem recalcCat_eq_of_no_valid {c : Contract} {caller : AccountId} {now : Nat}
    {rep : AgentReputation} (h : validFeedback c now rep.feedback_history = []) :
    recalculate_reputation_with_categories c caller now rep = rep := by
  unfold recalculate_reputation_with_categories
  split
  · rfl
  · dsimp only
    rw [h]
    simp

theorem recalc_score_filtered' (c : Contract) (caller : AccountId) (now : Nat)
    (rep repV : AgentReputation)
    (hscore : repV.score = rep.score)
    (htot : repV.total_interactions = rep.total_interactions)
    (hsucc : repV.successful_interactions = rep.successful_interactions)
    (hhist : repV.feedback_history = validFeedback c now rep.feedback_history) :
    (recalculate_reputation c caller now repV).score =
      (recalculate_reputation c caller now rep).score := by
  unfold recalculate_reputation
  dsimp only
  rw [hhist, validFeedback_idem, htot, hsucc]
  by_cases h1 : rep.total_interactions = 0
  · rw [if_pos h1, if_pos h1]
    exact hscore
  · rw [if_neg h1, if_neg h1]
    by_cases h2 : 0 < weight_sum (validFeedback c now rep.feedback_history)
    · rw [if_pos h2, if_pos h2]
    · rw [if_neg h2, if_neg h2]
      exact hscore

theorem recalc_score_filtered (c : Contract) (caller : AccountId) (now : Nat)
    (rep : AgentReputation) :
    (recalculate_reputation c caller now
      { rep with feedback_history := validFeedback c now rep.feedback_history }).score =
    (recalculate_reputation c caller now rep).score :=
  recalc_score_filtered' c caller now rep _ rfl rfl rfl rfl

theorem recalcCat_filtered (c : Contract) (caller : AccountId) (now : Nat)
    (rep : AgentReputation) :
    (recalculate_reputation_with_categories c caller now
      { rep with feedback_history := validFeedback c now rep.feedback_history }).score =
      (recalculate_reputation_with_categories c caller now rep).score ∧
    (recalculate_reputation_with_categories c caller now
      { rep with feedback_history := validFeedback c now rep.feedback_history
      }).category_scores =
      (recalculate_reputation_with_categories c caller now rep).category_scores := by
  unfold recalculate_reputation_with_categories
  dsimp only
  rw [validFeedback_idem]
  by_cases h1 : rep.total_interactions = 0
  · rw [if_pos h1, if_pos h1]
    exact ⟨rfl, rfl⟩
  · rw [if_neg h1, if_neg h1]
    by_cases h2 : (validFeedback c now rep.feedback_history).isEmpty = true
    · rw [if_pos h2, if_pos h2]
      exact ⟨rfl, rfl⟩
    · rw [if_neg h2, if_neg h2]
      constructor
      · exact recalc_score_filtered' c caller now _ _ rfl rfl rfl rfl
      · rw [recalc_keeps_categories, recalc_keeps_categories]

/-! ## Claim theorems -/

/-- C2: for every registered agent, after every sequence of contract
operations starting from a freshly initialised contract, the agent's record
satisfies `score ≤ 100` (with `0 ≤ score` carried by the `Nat` type) and
`successful_interactions ≤ total_interactions`. -/
theorem claim_C2_record_invariants (owner token : AccountId) (min_stake : Nat)
    (ops : List Op) :
    Inv (ops.foldl step (new owner token min_stake)) :=
  inv_foldl ops _ (inv_new owner token min_stake)

/-- C7: feedback entries older than the expiry period never influence a
recomputed score or the recomputed category averages: recomputing with the
full history yields the same score and category scores as recomputing with
only the non-expired entries, for both recomputation entry points. -/
theorem claim_C7_expired_feedback_no_influence (c : Contract) (caller : AccountId)
    (now : Nat) (rep : AgentReputation) :
    ((recalculate_reputation c caller now rep).score =
      (recalculate_reputation c caller now
        { rep with feedback_history := validFeedback c now rep.feedback_history }).score) ∧
    ((recalculate_reputation_with_categories c caller now rep).score =
      (recalculate_reputation_with_categories c caller now
        { rep with feedback_history := validFeedback c now rep.feedback_history }).score) ∧
    ((recalculate_reputation_with_categories c caller now rep).category_scores =
      (recalculate_reputation_with_categories c caller now
        { rep with feedback_history := validFeedback c now rep.feedback_history
        }).category_scores) :=
  ⟨(recalc_score_filtered c caller now rep).symm,
   (recalcCat_filtered c caller now rep).1.symm,
   (recalcCat_filtered c caller now rep).2.symm⟩

/-- C8: `get_trust_level` maps every score in `[0,100]` to exactly one
trust level, with the inclusive ranges 0–30 Novice, 31–50 Apprentice,
51–75 Trusted, 76–90 Expert, 91–100 Master, and the boundary values
30, 31 and 100 land on Novice, Apprentice and Master. -/
theorem claim_C8_trust_level_partition (score : Nat) (h : score ≤ 100) :
    (get_trust_level score = TrustLevel.Novice ↔ score ≤ 30) ∧
    (get_trust_level score = TrustLevel.Apprentice ↔ 31 ≤ score ∧ score ≤ 50) ∧
    (get_trust_level score = TrustLevel.Trusted ↔ 51 ≤ score ∧ score ≤ 75) ∧
    (get_trust_level score = TrustLevel.Expert ↔ 76 ≤ score ∧ score ≤ 90) ∧
    (get_trust_level score = TrustLevel.Master ↔ 91 ≤ score ∧ score ≤ 100) ∧
    get_trust_level 30 = TrustLevel.Novice ∧
    get_trust_level 31 = TrustLevel.Apprentice ∧
    get_trust_level 100 = TrustLevel.Master := by
  refine ⟨?_, ?_, ?_, ?_, ?_, by decide, by decide, by decide⟩ <;>
    (unfold get_trust_level; split_ifs <;> simp_all <;> omega)

/-- C8 witness: the theorem applied at the concrete score 42. -/
theorem claim_C8_trust_level_partition_witness :
    get_trust_level 42 = TrustLevel.Apprentice ∧ 42 ≤ 100 :=
  ⟨(claim_C8_trust_level_partition 42 (by norm_num)).2.1.mpr ⟨by norm_num, by norm_num⟩,
   by norm_num⟩

/-- C9: if at recomputation time there is no valid (non-expired) feedback
entry, both recomputation entry points leave score and category scores
exactly unchanged. -/
theorem claim_C9_no_valid_entries_noop (c : Contract) (caller : AccountId) (now : Nat)
    (rep : AgentReputation) (h : validFeedback c now rep.feedback_history = []) :
    (recalculate_reputation c caller now rep).score = rep.score ∧
    (recalculate_reputation c caller now rep).category_scores = rep.category_scores ∧
    (recalculate_reputation_with_categories c caller now rep).score = rep.score ∧
    (recalculate_reputation_with_categories c caller now rep).category_scores =
      rep.category_scores := by
  rw [recalculate_eq_of_no_valid h, recalcCat_eq_of_no_valid h]
  exact ⟨rfl, rfl, rfl, rfl⟩

/-- C9 witness: the theorem applied to a record whose only entry is expired. -/
theorem claim_C9_no_valid_entries_noop_witness :
    (recalculate_reputation (new "o" "t" 100) "x" 2592000000000001 repC9).score =
      repC9.score ∧
    (recalculate_reputation_with_categories (new "o" "t" 100) "x" 2592000000000001
      repC9).category_scores = repC9.category_scores := by
  have h := claim_C9_no_valid_entries_noop (new "o" "t" 100) "x" 2592000000000001 repC9
    (by decide)
  exact ⟨h.1, h.2.2.2⟩

/-- C10: `unstake_itlx` aborts with no state change when the requested
amount exceeds the caller's stake; otherwise the stake decreases by exactly
the amount, and when the remainder is below `min_stake_amount` and the
caller is registered, the score drops by exactly 5 when `score > 5` and is
unchanged when `score ≤ 5` (for an unregistered caller only the stake
changes). -/
theorem claim_C10_unstake_behaviour (c : Contract) (caller : AccountId) (amount : Nat) :
    (c.agent_stakes caller < amount → unstake_itlx c caller amount = none) ∧
    (amount ≤ c.agent_stakes caller →
      ∃ c', unstake_itlx c caller amount = some c' ∧
        c'.agent_stakes caller = c.agent_stakes caller - amount ∧
        (∀ rep, c.agent_reputations caller = some rep →
          ∃ rep', c'.agent_reputations caller = some rep' ∧
            rep'.score =
              (if c.agent_stakes caller - amount < c.min_stake_amount then
                 (if 5 < rep.score then rep.score - 5 else rep.score)
               else rep.score)) ∧
        (c.agent_reputations caller = none →
          c' = c.setStake caller (c.agent_stakes caller - amount))) := by
  constructor
  · intro hlt
    unfold unstake_itlx
    dsimp only
    rw [if_pos hlt]
  · intro hle
    have hnlt : ¬ c.agent_stakes caller < amount := not_lt.mpr hle
    unfold unstake_itlx
    dsimp only
    rw [if_neg hnlt]
    simp only [setStake_reps, setStake_min]
    cases hrep : c.agent_reputations caller with
    | none =>
      exact ⟨_, rfl, by rw [setStake_lookup]; simp, fun rep h0 => absurd h0 (by simp [hrep]),
        fun _ => rfl⟩
    | some agent_rep =>
      dsimp only
      by_cases hbelow : c.agent_stakes caller - amount < c.min_stake_amount
      · rw [if_pos hbelow]
        refine ⟨_, rfl, ?_, ?_, ?_⟩
        · rw [setRep_stakes, setStake_lookup]
          simp
        · intro rep h0
          injection h0 with h0
          subst h0
          refine ⟨(if 5 < agent_rep.score
              then { agent_rep with score := agent_rep.score - 5 } else agent_rep), ?_, ?_⟩
          · rw [setRep_lookup]
            simp
          · rw [if_pos hbelow]
            split
            · rfl
            · rfl
        · intro h0
          simp at h0
      · rw [if_neg hbelow]
        refine ⟨_, rfl, by rw [setStake_lookup]; simp, ?_, fun _ => rfl⟩
        intro rep h0
        injection h0 with h0
        subst h0
        exact ⟨agent_rep, by rw [setStake_reps]; exact hrep, by rw [if_neg hbelow]⟩

/-- C10 witness: stake 100, minimum 100, registered caller with score 50
unstakes 60; the remaining 40 is below the minimum, so the score drops to 45. -/
theorem claim_C10_unstake_behaviour_witness :
    ∃ c', unstake_itlx
        (((new "o" "t" 100).setRep "bob"
          (AgentReputation.initial 0 [])).setStake "bob" 100) "bob" 60 = some c' ∧
      c'.agent_stakes "bob" = 40 ∧
      ∃ rep', c'.agent_reputations "bob" = some rep' ∧ rep'.score = 45 := by
  obtain ⟨-, h⟩ := claim_C10_unstake_behaviour
    (((new "o" "t" 100).setRep "bob" (AgentReputation.initial 0 [])).setStake "bob" 100)
    "bob" 60
  obtain ⟨c', hc', hstake, hreg, -⟩ := h (by decide)
  obtain ⟨rep', hrep', hscore⟩ := hreg (AgentReputation.initial 0 []) (by decide)
  refine ⟨c', hc', ?_, rep', hrep', ?_⟩
  · rw [hstake]
    decide
  · rw [hscore]
    decide

theorem enum_weight_le_spec (l : List FeedbackEntry) :
    ∀ p ∈ l.enum, p.1 + 1 ≤ spec_weight_total l := by
  intro p hp
  exact List.le_sum_of_mem (List.mem_map_of_mem _ hp)

theorem enum_term_le_spec (l : List FeedbackEntry) :
    ∀ p ∈ l.enum, p.2.rating * (p.1 + 1) ≤ spec_weighted_rating_sum l := by
  intro p hp
  exact List.le_sum_of_mem (List.mem_map_of_mem _ hp)

theorem weight_sum_eq_spec (l : List FeedbackEntry)
    (hb : spec_weight_total l < 2 ^ 32) :
    weight_sum l = spec_weight_total l := by
  unfold weight_sum
  have hmap : l.enum.map (fun p => (u32cast p.1 + 1) % 2 ^ 32) =
      l.enum.map (fun p => p.1 + 1) := by
    apply List.map_congr_left
    intro p hp
    have h1 : p.1 + 1 ≤ spec_weight_total l := enum_weight_le_spec l p hp
    rw [show u32cast p.1 = p.1 from Nat.mod_eq_of_lt (by omega)]
    exact Nat.mod_eq_of_lt (by omega)
  rw [hmap]
  exact Nat.mod_eq_of_lt hb

theorem total_rating_eq_spec (l : List FeedbackEntry)
    (hb1 : spec_weight_total l < 2 ^ 32)
    (hb2 : spec_weighted_rating_sum l < 2 ^ 32) :
    total_rating l = spec_weighted_rating_sum l := by
  unfold total_rating
  have hmap : l.enum.map (fun p => p.2.rating * ((u32cast p.1 + 1) % 2 ^ 32) % 2 ^ 32) =
      l.enum.map (fun p => p.2.rating * (p.1 + 1)) := by
    apply List.map_congr_left
    intro p hp
    have h1 : p.1 + 1 ≤ spec_weight_total l := enum_weight_le_spec l p hp
    have h2 : p.2.rating * (p.1 + 1) ≤ spec_weighted_rating_sum l :=
      enum_term_le_spec l p hp
    rw [show u32cast p.1 = p.1 from Nat.mod_eq_of_lt (by omega),
      Nat.mod_eq_of_lt (show p.1 + 1 < 2 ^ 32 by omega)]
    exact Nat.mod_eq_of_lt (by omega)
  rw [hmap]
  exact Nat.mod_eq_of_lt hb2

theorem spec_weight_total_pos (l : List FeedbackEntry) (h : l ≠ []) :
    0 < spec_weight_total l := by
  cases l with
  | nil => exact absurd rfl h
  | cons a t =>
    unfold spec_weight_total
    rw [show (a :: t).enum = (0, a) :: t.enumFrom 1 from rfl]
    simp only [List.map_cons, List.sum_cons]
    omega

theorem spec_success_rate_le {rep : AgentReputation}
    (htot : 0 < rep.total_interactions)
    (hsucc : rep.successful_interactions ≤ rep.total_interactions) :
    spec_success_rate rep ≤ 100 := by
  unfold spec_success_rate
  calc rep.successful_interactions * 100 / rep.total_interactions
      ≤ rep.total_interactions * 100 / rep.total_interactions :=
        Nat.div_le_div_right (Nat.mul_le_mul_right _ hsucc)
    _ = 100 := Nat.mul_div_cancel_left 100 htot

theorem success_rate_exact {rep : AgentReputation}
    (htot : 0 < rep.total_interactions)
    (hsucc : rep.successful_interactions ≤ rep.total_interactions)
    (h64 : rep.successful_interactions * 100 < 2 ^ 64) :
    u32cast (rep.successful_interactions * 100 % 2 ^ 64 / rep.total_interactions) =
      spec_success_rate rep := by
  unfold u32cast
  rw [Nat.mod_eq_of_lt h64]
  have h1 := spec_success_rate_le htot hsucc
  unfold spec_success_rate at h1 ⊢
  exact Nat.mod_eq_of_lt (by omega)

/-- C4: with at least one valid (non-expired) entry, the recomputed score
is `min ((weighted_avg_scaled + success_rate) / 2 + stake_bonus, 100)`
under integer division, with the recency weights 1..n over the valid
entries in insertion order and the success rate over the lifetime
counters.  The side conditions confine the statement to states where the
source's fixed-width scoring arithmetic is exact: counters with
`total > 0`, `successful ≤ total` and `successful * 100` within `u64`;
weight and weighted-rating sums small enough that the `u32` accumulators,
the `* 20` multiply and the `raw_score + success_rate` addition do not
wrap; and a nonzero `min_stake_amount`, so the stake-bonus division is
defined.  Outside that regime the source wraps (or, with overflow checks,
aborts) and no exact formula is claimed. -/
theorem claim_C4_score_formula (c : Contract) (caller : AccountId) (now : Nat)
    (rep : AgentReputation)
    (hvalid : validFeedback c now rep.feedback_history ≠ [])
    (htot : 0 < rep.total_interactions)
    (hsucc : rep.successful_interactions ≤ rep.total_interactions)
    (h64 : rep.successful_interactions * 100 < 2 ^ 64)
    (hwt : spec_weight_total (validFeedback c now rep.feedback_history) < 2 ^ 32)
    (htr : spec_weighted_rating_sum (validFeedback c now rep.feedback_history) * 20 +
      100 < 2 ^ 32)
    (hmin : 0 < c.min_stake_amount) :
    (recalculate_reputation c caller now rep).score =
      min ((spec_weighted_avg_scaled (validFeedback c now rep.feedback_history) +
            spec_success_rate rep) / 2 + calculate_stake_bonus c caller) 100 := by
  have hwsum : weight_sum (validFeedback c now rep.feedback_history) =
      spec_weight_total (validFeedback c now rep.feedback_history) :=
    weight_sum_eq_spec _ hwt
  have htreq : total_rating (validFeedback c now rep.feedback_history) =
      spec_weighted_rating_sum (validFeedback c now rep.feedback_history) :=
    total_rating_eq_spec _ hwt (by omega)
  have hpos : 0 < weight_sum (validFeedback c now rep.feedback_history) := by
    rw [hwsum]
    exact spec_weight_total_pos _ hvalid
  have hraw : spec_weighted_rating_sum (validFeedback c now rep.feedback_history) * 20 /
      spec_weight_total (validFeedback c now rep.feedback_history) ≤
      spec_weighted_rating_sum (validFeedback c now rep.feedback_history) * 20 :=
    Nat.div_le_self _ _
  have hrate : spec_success_rate rep ≤ 100 := spec_success_rate_le htot hsucc
  unfold recalculate_reputation
  rw [if_neg (by omega)]
  dsimp only
  rw [if_pos hpos]
  rw [htreq, hwsum,
    Nat.mod_eq_of_lt (show spec_weighted_rating_sum
      (validFeedback c now rep.feedback_history) * 20 < 2 ^ 32 by omega),
    success_rate_exact htot hsucc h64,
    Nat.mod_eq_of_lt (by omega)]
  rfl

/-- C4 witness: ratings 1 then 4 give weighted sum 9, weights 3, scaled
average 60; success rate 50; combined 55; zero stake bonus. -/
theorem claim_C4_score_formula_witness :
    (recalculate_reputation (new "o" "t" 100) "x" 0 repC4).score = 55 := by
  rw [claim_C4_score_formula (new "o" "t" 100) "x" 0 repC4 (by decide) (by decide)
    (by decide) (by decide) (by decide) (by decide) (by decide)]
  decide

/-! ## C1: which account's stake feeds the bonus -/

/-- C1 (code deviation): the recomputation triggered by alice's feedback on
bob reads the stake of the caller alice (bonus 0, final score 80), not of
the agent bob, whose own stake would give the staircase bonus 15 and final
score `min (80 + 15) 100 = 95`. -/
theorem claim_C1_stake_bonus_reads_caller :
    calculate_stake_bonus cBug "bob" = 15 ∧
    calculate_stake_bonus cBug "alice" = 0 ∧
    ((add_feedback cBug "alice" 0 "bob" 3
        { accuracy := 3, response_time := 3, communication := 3, problem_solving := 3,
          ethics := 3 } none).bind
      (fun c' => c'.agent_reputations "bob")).map AgentReputation.score = some 80 ∧
    min (80 + calculate_stake_bonus cBug "bob") 100 = 95 := by
  decide

/-! ## C5: effect of the intent operations -/

/-- C5 counterexample: completing an intent through `update_intent_status`
increments the agent's `total_interactions` from 0 to 1, so the intent
operations do not leave the `AgentRecord` completely unchanged. -/
theorem claim_C5_counterexample :
    ((update_intent_status cC5 "bob" "completed").bind
      (fun c' => c'.agent_reputations "bob")).map AgentReputation.total_interactions =
        some 1 ∧
    (cC5.agent_reputations "bob").map AgentReputation.total_interactions = some 0 := by
  decide

/-- C5 (amended): `record_intent` returns the state unchanged, and
`update_intent_status` never touches score, feedback history or category
scores, but on a "completed" or "failed" status it increments
`total_interactions` (and `successful_interactions` on "completed");
an "in_progress" status leaves the record unchanged. -/
theorem claim_C5_intent_ops_effect (c : Contract) (caller : AccountId) (now : Nat)
    (agent_id : AccountId) (status : String) :
    (∀ c', record_intent c caller now agent_id = some c' → c' = c) ∧
    (∀ c' rep, update_intent_status c caller status = some c' →
      c.agent_reputations caller = some rep →
      ∃ rep', c'.agent_reputations caller = some rep' ∧
        rep'.score = rep.score ∧
        rep'.feedback_history = rep.feedback_history ∧
        rep'.category_scores = rep.category_scores ∧
        rep'.total_interactions = rep.total_interactions +
          (if status = "completed" ∨ status = "failed" then 1 else 0) ∧
        rep'.successful_interactions = rep.successful_interactions +
          (if status = "completed" then 1 else 0)) := by
  constructor
  · intro c' hc'
    unfold record_intent at hc'
    split at hc'
    · exact absurd hc' (by simp)
    · injection hc' with h
      exact h.symm
  · intro c' rep hupd hrep
    unfold update_intent_status at hupd
    rw [hrep] at hupd
    dsimp only at hupd
    unfold parse_intent_status at hupd
    by_cases h1 : status = "completed"
    · rw [if_pos h1] at hupd
      simp only [if_pos (Or.inl rfl)] at hupd
      injection hupd with h
      subst h
      refine ⟨{ rep with
          total_interactions := rep.total_interactions + 1,
          successful_interactions := rep.successful_interactions +
            (if IntentStatus.Completed = IntentStatus.Completed then 1 else 0) },
        by rw [setRep_lookup]; simp, rfl, rfl, rfl, ?_, ?_⟩
      · simp [h1]
      · simp [h1]
    · rw [if_neg h1] at hupd
      by_cases h2 : status = "failed"
      · rw [if_pos h2] at hupd
        simp only [if_pos (Or.inr rfl)] at hupd
        injection hupd with h
        subst h
        refine ⟨{ rep with
            total_interactions := rep.total_interactions + 1,
            successful_interactions := rep.successful_interactions +
              (if IntentStatus.Failed = IntentStatus.Completed then 1 else 0) },
          by rw [setRep_lookup]; simp, rfl, rfl, rfl, ?_, ?_⟩
        · simp [h1, h2]
        · simp [h1, h2]
      · rw [if_neg h2] at hupd
        by_cases h3 : status = "in_progress"
        · rw [if_pos h3] at hupd
          dsimp only at hupd
          rw [if_neg (by simp)] at hupd
          injection hupd with h
          subst h
          exact ⟨rep, hrep, rfl, rfl, rfl, by simp [h1, h2], by simp [h1]⟩
        · rw [if_neg h3] at hupd
          exact absurd hupd (by simp)

/-- C5 witness: the amended theorem evaluated: a "completed" intent on a
fresh record yields counters 1/1 and an unchanged score of 50. -/
theorem claim_C5_intent_ops_effect_witness :
    ∃ c', update_intent_status cC5 "bob" "completed" = some c' ∧
      ∃ rep', c'.agent_reputations "bob" = some rep' ∧
        rep'.score = 50 ∧ rep'.total_interactions = 1 ∧
        rep'.successful_interactions = 1 := by
  obtain ⟨c', hc'⟩ : ∃ c', update_intent_status cC5 "bob" "completed" = some c' :=
    ⟨_, rfl⟩
  obtain ⟨-, h⟩ := claim_C5_intent_ops_effect cC5 "bob" 0 "bob" "completed"
  obtain ⟨rep', h1, h2, -, -, h5, h6⟩ := h c' (AgentReputation.initial 0 []) hc' (by decide)
  refine ⟨c', hc', rep', h1, ?_, ?_, ?_⟩
  · rw [h2]; decide
  · rw [h5]; decide
  · rw [h6]; decide

/-! ## C6: stake-boosted recovery -/

end Reputation
